import Mathlib

/-!
Verification development for the content-update engine in `src/updater.js`.

The JavaScript source is shallowly embedded as executable Lean definitions:

* JSON manifests become the `Manifest` structure (fields that the updater
  reads); JS `undefined`/missing fields become `Option`; JS string
  truthiness (`""` is falsy) is modelled by `truthy`.
* The filesystem is modelled at the granularity the updater works at: the
  four sibling directory trees it touches (`distDir`, `distDir.bak`,
  `.update_tmp`, `.dist_tmp`), each an association list from relative
  path to file content.  Directories are implicit (the code only ever
  creates parent directories for files it writes and removes whole
  trees).  File contents are `FileData`; `FileData.jsonManifest` marks a
  file whose text parses as a manifest, `FileData.raw` any other bytes
  (so `JSON.parse` failure is the `raw` constructor).
* Network effects (`fetchText`, `downloadToFile`) are oracles in `Env`:
  the remote `content.json` fetch/parse outcome, the scraped
  `index.html`/CSS asset list (the regex scraper of lines 101-150 is
  abstracted behind this oracle; no claim concerns the regexes), and a
  per-URL download outcome with its streamed chunk sizes.  Rename
  failures during the swap are injected by the `displaceFails` /
  `promoteFails` flags, and a progress listener that throws on every
  invocation by `listenerThrows`.
* Progress percentages (JS numbers) are modelled as exact rationals.
* `remoteBaseUrl` is assumed to be a bare origin (`http://host[:port]`)
  with no path, matching every base URL the repository passes
  (`http://127.0.0.1:5173`, `http://localhost:5173`, the heroku origin);
  under that assumption `new URL(p, base)` is string concatenation as in
  `urlResolve`, and dot-segment normalisation never fires.
-/

/-- A content item of a book (`type` is `image` / `video` / `paragraph`). -/
structure Item where
  type : String
  src : Option String
  text : Option String
deriving DecidableEq, Repr

/-- A book of the manifest; `id` is the stringified JS `id` field
(`none` = the field is `undefined`). -/
structure Book where
  id : Option String
  cover : Option String
  content : Option (List Item)
  paragraphs : Option (List String)
deriving DecidableEq, Repr

/-- A collection wrapping a nested `books` array. -/
structure Collection where
  books : Option (List Book)
deriving DecidableEq, Repr

/-- An entry of the manifest's explicit `files` array. -/
structure FileEntry where
  url : Option String
  path : Option String
  size : Option Nat
deriving DecidableEq, Repr

/-- The parsed `content.json` manifest (the fields the updater reads). -/
structure Manifest where
  version : Option String
  books : Option (List Book)
  collections : Option (List Collection)
  files : Option (List FileEntry)
deriving DecidableEq, Repr

/-- Content of one file on disk.  `jsonManifest m` is a file whose bytes
parse (by `JSON.parse`) to the manifest `m`; `raw s` is any other byte
string, which fails to parse as a manifest. -/
inductive FileData where
  | raw (s : String)
  | jsonManifest (m : Manifest)
deriving DecidableEq, Repr

/-- Byte size of a file, used for the zero-size download check
(a JSON manifest text is never empty). -/
def FileData.byteSize : FileData → Nat
  | .raw s => s.length
  | .jsonManifest _ => 1

/-- Model of `JSON.parse` applied to a file's bytes. -/
def parseJson : FileData → Option Manifest
  | .raw _ => none
  | .jsonManifest m => some m

/-- A directory tree: association list from slash-separated relative path
to file content (first binding wins, keys kept unique by `insertT`). -/
abbrev DirTree := List (String × FileData)

/-- Look up a file in a tree. -/
def lookupT (t : DirTree) (k : String) : Option FileData :=
  (t.find? (fun e => e.1 = k)).map (fun e => e.2)

/-- Write a file into a tree (overwrite if present, append otherwise),
modelling `fs.createWriteStream` / `fs.copyFileSync` to that path. -/
def insertT (t : DirTree) (k : String) (v : FileData) : DirTree :=
  if (t.find? (fun e => e.1 = k)).isSome then
    t.map (fun e => if e.1 = k then (k, v) else e)
  else
    t ++ [(k, v)]

/-- Remove a file from a tree, modelling `fs.unlinkSync` / `fs.rmSync`
of a single file. -/
def eraseT (t : DirTree) (k : String) : DirTree :=
  t.filter (fun e => ¬ e.1 = k)

/-- The four sibling directories `runUpdater` touches.  `none` means the
directory does not exist; `some t` that it exists with file set `t`
(`runUpdater` never writes anywhere else: `tmpRoot`, `distTmp` and
`distDir.bak` are siblings of `distDir` via `path.join(distDir, '..', _)`). -/
structure Fs where
  dist : Option DirTree
  bak : Option DirTree
  tmpRoot : Option DirTree
  distTmp : Option DirTree
deriving DecidableEq, Repr

/-- JS string truthiness of an optional string field: `undefined` and
`""` are falsy. -/
def truthy : Option String → Option String
  | some s => if s = "" then none else some s
  | none => none

/-- Reading the local manifest (`{distDir}/content.json`): missing
directory, missing file and parse failure all yield `null`
(updater.js lines 246-249 / 444-447). -/
def localManifest (fs : Fs) : Option Manifest :=
  match fs.dist with
  | none => none
  | some t =>
    match lookupT t "content.json" with
    | none => none
    | some d => parseJson d

/-- The `local && local.version ? local.version : null` computation. -/
def manifestVer : Option Manifest → Option String
  | some m => truthy m.version
  | none => none

/-- Character-list prefix test; the model of `String.startsWith`
(structurally recursive so that concrete runs evaluate). -/
def strStarts (pre s : String) : Bool :=
  pre.data.isPrefixOf s.data

/-- True when the string is an absolute `http://` or `https://` URL
(updater.js line 54). -/
def isAbsUrl (p : String) : Bool :=
  strStarts "http://" p || strStarts "https://" p

/-- Model of `new URL(p, base).toString()` for a path-less origin
`base`: an absolute URL passes through, a root-relative reference is
appended to the origin, anything else is resolved as a sibling of the
origin's root path. -/
def urlResolve (base p : String) : String :=
  if isAbsUrl p then p
  else if p = "" then base ++ "/"
  else if strStarts "/" p then base ++ p
  else base ++ "/" ++ p

/-- The characters after the first `://` marker, if any. -/
def afterScheme : List Char → Option (List Char)
  | ':' :: '/' :: '/' :: rest => some rest
  | _ :: rest => afterScheme rest
  | [] => none

/-- The characters from the first `/` on (dropping the host part). -/
def fromFirstSlash : List Char → List Char
  | [] => []
  | '/' :: rest => '/' :: rest
  | _ :: rest => fromFirstSlash rest

/-- The `pathname` of an absolute URL string (`new URL(u).pathname`):
everything from the first slash after `scheme://host`, and `/` when the
URL has no path.  Strings without `://` are returned unchanged (the
updater only ever applies this to URLs it has already resolved). -/
def pathnameOf (u : String) : String :=
  match afterScheme u.data with
  | none => u
  | some rest =>
    match fromFirstSlash rest with
    | [] => "/"
    | l => String.mk l

/-- Strip one leading slash: `s.replace(/^\//, '')`. -/
def dropLeadSlash (s : String) : String :=
  match s.data with
  | '/' :: rest => String.mk rest
  | _ => s

/-- The staging-relative destination the download loop derives from a
URL: `new URL(url).pathname.replace(/^\//, '')` (updater.js lines
330-331 and 347-348). -/
def relOfUrl (u : String) : String :=
  dropLeadSlash (pathnameOf u)

/-- Model of Node's `path.basename` on the URL strings the updater
builds: the characters after the last `/`. -/
def basenameOf (u : String) : String :=
  String.mk (u.data.foldl (fun acc c => if c = '/' then [] else acc ++ [c]) [])

/-- The `resolveAsset` helper of `inferFilesFromManifest` (updater.js
lines 51-63): falsy reference gives `null`; an absolute URL passes
through; a leading `/` resolves against the base; otherwise, when the
enclosing book has a defined `id`, the reference is placed under
`/books/{id}/`; only without such an id does it resolve against the
base. -/
def resolveAsset (base : String) (b : Option Book) (p : Option String) : Option String :=
  match p with
  | none => none
  | some p =>
    if p = "" then none
    else if isAbsUrl p then some p
    else if strStarts "/" p then some (base ++ p)
    else
      match b with
      | some bk =>
        match bk.id with
        | some id => some (base ++ "/books/" ++ id ++ "/" ++ p)
        | none => some (base ++ "/" ++ p)
      | none => some (base ++ "/" ++ p)

/-- Insertion-ordered `Set.add` on URL strings. -/
def addUnique (l : List String) (x : String) : List String :=
  if x ∈ l then l else l ++ [x]

/-- Add an optional resolved asset (`if (u) files.add(u)`). -/
def addAsset (l : List String) (o : Option String) : List String :=
  match o with
  | none => l
  | some u => addUnique l u

/-- The `handleBook` closure: add the resolved cover, then the resolved
`src` of every `image`/`video` content item with a truthy `src`. -/
def handleBook (base : String) (l : List String) (b : Book) : List String :=
  let l1 := addAsset l (resolveAsset base (some b) b.cover)
  match b.content with
  | none => l1
  | some items =>
    items.foldl
      (fun acc it =>
        if (it.type = "image" ∨ it.type = "video") ∧ (truthy it.src).isSome then
          addAsset acc (resolveAsset base (some b) it.src)
        else acc)
      l1

/-- `inferFilesFromManifest` (updater.js lines 48-99): walk the flat
`books` array, then every `collections[].books[]` array, and always add
`/content.json` resolved against the base. -/
def inferFilesFromManifest (m : Manifest) (base : String) : List String :=
  let l1 :=
    match m.books with
    | some bs => bs.foldl (handleBook base) []
    | none => []
  let l2 :=
    match m.collections with
    | some cols =>
      cols.foldl
        (fun acc c =>
          match c.books with
          | some bs => bs.foldl (handleBook base) acc
          | none => acc)
        l1
    | none => l1
  addUnique l2 (urlResolve base "/content.json")

/-- The unit of work of the download pipeline (updater.js lines 283-285
and 314). -/
structure FileDesc where
  url : String
  path : String
  size : Option Nat
deriving DecidableEq, Repr

/-- Mapping of one explicit `files` entry (updater.js lines 283-286):
the URL is the truthy `url` resolved against the base, else the
(possibly empty) `path` resolved against the base; the recorded relative
path is the truthy `path`, else the basename of the URL. -/
def mapFileEntry (base : String) (f : FileEntry) : FileDesc :=
  let url :=
    match truthy f.url with
    | some u => urlResolve base u
    | none => urlResolve base (match f.path with | some p => p | none => "")
  { url := url
    path := match truthy f.path with | some p => p | none => basenameOf url
    size := f.size }

/-- Outcome of one `downloadToFile` call: a network/HTTP/timeout error
(after which the partial file is unlinked), or success delivering
`data`, with `hasLen` the presence of a `content-length` header and
`chunks` the streamed chunk sizes (an honest server: the header value is
the total byte count, so the running `received` never exceeds it). -/
inductive DlOutcome where
  | netErr (msg : String)
  | ok (data : FileData) (hasLen : Bool) (chunks : List Nat)
deriving DecidableEq, Repr

/-- Outcome of fetching and parsing the remote `content.json`. -/
inductive RemoteFetch where
  | fetchFail (msg : String)
  | parseFail (msg : String)
  | ok (m : Manifest)
deriving DecidableEq, Repr

/-- The environment of one `runUpdater` / `checkForUpdate` call: the
base URL, the behaviour of the progress listener, and the network
oracles.  `indexScrape = none` models a failed `index.html` fetch
(non-fatal); `some l` the asset list scraped from `index.html` and its
linked CSS.  `displaceFails` / `promoteFails` inject a throw of the
corresponding `fs.renameSync` (with message `renameErr`), and `now` is
the timestamp written to the `.updated_at` marker. -/
structure Env where
  base : String
  listenerThrows : Bool
  remoteFetch : RemoteFetch
  indexScrape : Option (List String)
  download : String → DlOutcome
  displaceFails : Bool
  promoteFails : Bool
  renameErr : String
  now : String

/-- The typed errors `runUpdater` / `checkForUpdate` raise, one
constructor per distinct `throw` message shape in the source:
`fetchErr` = `Failed to fetch remote content.json: {cause}`,
`parseErr` = `Remote content.json parse error: {cause}`,
`downloadErr` = `Failed to download {url}: {cause}`,
`swapErr` = `Failed to swap dist directories: {cause}`, and
`listenerErr` an exception escaping the caller's `onProgress` listener
(which the source does not catch). -/
inductive UErr where
  | fetchErr (cause : String)
  | parseErr (cause : String)
  | downloadErr (url : String) (cause : String)
  | swapErr (cause : String)
  | listenerErr
deriving DecidableEq, Repr

/-- The successful results of `runUpdater` (updater.js lines 277 and
434). -/
inductive URes where
  | notUpdated (reason : String) (localVer remoteVer : Option String)
  | updated (localVer remoteVer : Option String)
deriving DecidableEq, Repr

/-- One delivered progress callback: `pct p m` is
`onProgress({percent: p, message: m})`, `status m` is
`onProgress({percent: null, message: m})`. -/
inductive Ev where
  | pct (p : ℚ) (msg : String)
  | status (msg : String)
deriving DecidableEq, Repr

/-- The non-null percent values of an event list, in delivery order. -/
def percents (evs : List Ev) : List ℚ :=
  evs.filterMap (fun e => match e with | .pct p _ => some p | .status _ => none)

/-- Running totals of the streamed chunk sizes (the `received` counter
after each `data` event). -/
def cumSums : List Nat → List Nat
  | [] => []
  | c :: cs => c :: (cumSums cs).map (fun r => r + c)

/-- The overall percent reported for one chunk or file boundary of the
download phase: `CREATE_MAX + ((idx + x) / totalFiles) * (DOWNLOAD_MAX -
CREATE_MAX)` clamped at `DOWNLOAD_MAX` (updater.js lines 354-356 and
367-368). -/
def dlPct (n idx : Nat) (x : ℚ) : ℚ :=
  min 90 (15 + (((idx : ℚ) + x) / (n : ℚ)) * 75)

/-- The overall percent reported during the TTS phase: `DOWNLOAD_MAX +
((i + x) / totalBooks) * (100 - DOWNLOAD_MAX)` clamped at 100
(updater.js lines 200-201 and 214-215). -/
def ttsPct (nb i : Nat) (x : ℚ) : ℚ :=
  min 100 (90 + (((i : ℚ) + x) / (nb : ℚ)) * 10)

/-- The per-chunk progress events of one file download: one event per
`data` chunk when a content-length is present and non-zero, none
otherwise (`if (onProgress && total)`, updater.js line 33). -/
def fileChunkEvs (n idx : Nat) (rel : String) (hasLen : Bool) (chunks : List Nat) : List Ev :=
  if hasLen ∧ chunks.sum ≠ 0 then
    (cumSums chunks).map
      (fun (r : Nat) => .pct (dlPct n idx ((r : ℚ) / (chunks.sum : ℚ))) ("Downloading " ++ rel))
  else []

/-- The per-chunk progress events of one TTS download (updater.js lines
198-203). -/
def ttsChunkEvs (nb i : Nat) (id : String) (hasLen : Bool) (chunks : List Nat) : List Ev :=
  if hasLen ∧ chunks.sum ≠ 0 then
    (cumSums chunks).map
      (fun (r : Nat) => .pct (ttsPct nb i ((r : ℚ) / (chunks.sum : ℚ))) ("Downloading TTS for book " ++ id))
  else []

/-- The progress events of the create-folders loop (updater.js lines
327-339): for `i = 0 .. n-1`, percent `min(CREATE_MAX, ANALYZE_MAX +
((i+1)/max(1,n)) * (CREATE_MAX - ANALYZE_MAX))`. -/
def createEvs (files : List FileDesc) : List Ev :=
  (List.range files.length).map
    (fun i =>
      .pct (min 15 (5 + ((((i + 1 : Nat)) : ℚ) / ((max 1 files.length : Nat) : ℚ)) * 10))
        ("Prepared folder for " ++ relOfUrl ((files.getD i ⟨"", "", none⟩).url)))

/-- Result of the download loop: either the populated staging tree with
its progress events, or the first failure's URL and cause with the
events delivered before the abort. -/
inductive DlRes where
  | ok (tmp : DirTree) (evs : List Ev)
  | fail (url cause : String) (evs : List Ev)
deriving DecidableEq, Repr

/-- The download loop (updater.js lines 344-375): files are fetched
sequentially into the staging tree at the path component of their URL; a
zero-byte result is a failure; the first failure stops the loop. -/
def dlLoop (env : Env) (n : Nat) : List FileDesc → Nat → Nat → DirTree → DlRes
  | [], _, _, tmp => .ok tmp []
  | f :: rest, idx, cnt, tmp =>
    let rel := relOfUrl f.url
    match env.download f.url with
    | .netErr msg => .fail f.url msg []
    | .ok data hasLen chunks =>
      let evs1 := fileChunkEvs n idx rel hasLen chunks
      let tmp1 := insertT tmp rel data
      if data.byteSize = 0 then
        .fail f.url "Downloaded file invalid: Downloaded file size is zero" evs1
      else
        let ev2 := Ev.pct (dlPct n (cnt + 1) 0) ("Downloaded " ++ rel)
        match dlLoop env n rest (idx + 1) (cnt + 1) tmp1 with
        | .ok tmpF evsF => .ok tmpF (evs1 ++ ev2 :: evsF)
        | .fail u c evsF => .fail u c (evs1 ++ ev2 :: evsF)

/-- Whitespace characters for the model of `String.trim`. -/
def isWsp (c : Char) : Bool :=
  c = ' ' ∨ c = '\t' ∨ c = '\n' ∨ c = '\r'

/-- A book qualifies for the TTS phase when it has a non-empty
`paragraphs` array, or a content item of type `paragraph` whose `text`
is a string with non-empty trim (updater.js lines 159-173). -/
def ttsEligible (b : Book) : Bool :=
  (match b.paragraphs with
   | some ps => decide (0 < ps.length)
   | none => false) ||
  (match b.content with
   | some items =>
     items.any (fun it =>
       it.type = "paragraph" &&
       (match it.text with | some t => t.data.any (fun c => ¬ isWsp c) | none => false))
   | none => false)

/-- The books the TTS phase processes, flat `books` first, then every
collection's books, in manifest order. -/
def collectTtsBooks (m : Manifest) : List Book :=
  let l1 :=
    match m.books with
    | some bs => bs.filter ttsEligible
    | none => []
  match m.collections with
  | some cols =>
    cols.foldl
      (fun acc c =>
        match c.books with
        | some bs => acc ++ bs.filter ttsEligible
        | none => acc)
      l1
  | none => l1

/-- The stringification of a book's `id` inside the TTS phase's
template literals (`undefined` when the field is missing, as JS
stringifies it). -/
def ttsBookId (b : Book) : String :=
  match b.id with | some s => s | none => "undefined"

/-- One book of the TTS phase (updater.js lines 188-210): download
`{base}/books/{id}/tts.wav` into the staging tree; on failure unlink the
partial file and deliver no chunk events. -/
def ttsStep (env : Env) (nb i : Nat) (b : Book) (tmp : DirTree) : DirTree × List Ev :=
  let rel := "books/" ++ ttsBookId b ++ "/tts.wav"
  match env.download (env.base ++ "/books/" ++ ttsBookId b ++ "/tts.wav") with
  | .netErr _ => (eraseT tmp rel, ([] : List Ev))
  | .ok data hasLen chunks =>
    (insertT tmp rel data, ttsChunkEvs nb i (ttsBookId b) hasLen chunks)

/-- The TTS phase (updater.js lines 155-219): for every eligible book,
run `ttsStep` (failures are ignored) and always emit the end-of-book
progress event. -/
def ttsLoop (env : Env) (nb : Nat) : List Book → Nat → DirTree → DirTree × List Ev
  | [], _, tmp => (tmp, [])
  | b :: rest, i, tmp =>
    let step := ttsStep env nb i b tmp
    let ev2 := Ev.pct (ttsPct nb (i + 1) 0) ("Processed TTS for book " ++ ttsBookId b)
    let next := ttsLoop env nb rest (i + 1) step.1
    (next.1, step.2 ++ ev2 :: next.2)

/-- `copyRecursive(distDir, distTmp)` followed by
`copyRecursive(tmpRoot, distTmp)` (updater.js lines 395-410): the old
tree with every staged file overlaid on top. -/
def overlayT (lower upper : DirTree) : DirTree :=
  lower.map (fun e => match lookupT upper e.1 with | some v => (e.1, v) | none => e) ++
  upper.filter (fun e => (lookupT lower e.1).isNone)

/-- The asset list of the no-explicit-files branch (updater.js lines
288-315): structural discovery merged with the scraped `index.html` /
CSS assets, plus `index.html` itself; each URL's recorded path is its
pathname. -/
def inferBranch (env : Env) (remote : Manifest) : List FileDesc :=
  let inferred := inferFilesFromManifest remote env.base
  let idxAssets := match env.indexScrape with | some l => l | none => []
  let merged := idxAssets.foldl addUnique inferred
  let merged2 := addUnique merged (urlResolve env.base "/index.html")
  merged2.map (fun u => { url := u, path := pathnameOf u, size := none })

/-- The files the session will download (updater.js lines 281-315): the
explicit `files` array verbatim when non-empty, else the inferred set. -/
def filesToDownload (env : Env) (remote : Manifest) : List FileDesc :=
  match remote.files with
  | some fl => if 0 < fl.length then fl.map (mapFileEntry env.base) else inferBranch env remote
  | none => inferBranch env remote

/-- The version-gate test of updater.js line 275:
`remoteVer && localVer && remoteVer === localVer`. -/
def sameVersionHit (remote : Manifest) (fs : Fs) : Bool :=
  match truthy remote.version, manifestVer (localManifest fs) with
  | some rv, some lv => rv = lv
  | _, _ => false

/-- The swap block (updater.js lines 412-432): remove a stale
`distDir.bak`, rename `distDir → distDir.bak`, rename `distTmp →
distDir`, then delete the backup and the staging tree and write the
`.updated_at` marker; if a rename throws, rename `distDir.bak` back when
it exists and `distDir` is missing, and report the cause. -/
def swapPhase (env : Env) (fs : Fs) : Option String × Fs :=
  let fs1 : Fs := { fs with bak := none }
  if env.displaceFails then
    (some env.renameErr, fs1)
  else
    match fs1.dist with
    | none => (some "ENOENT", fs1)
    | some d =>
      let fs2 : Fs := { fs1 with dist := none, bak := some d }
      if env.promoteFails then
        (some env.renameErr, { fs2 with dist := some d, bak := none })
      else
        match fs2.distTmp with
        | none => (some "ENOENT", { fs2 with dist := some d, bak := none })
        | some dt =>
          (none,
           { dist := some (insertT dt ".updated_at" (.raw env.now))
             bak := none
             tmpRoot := none
             distTmp := none })

/-- The outcome wrapping of the swap block inside `runUpdater`: a
throwing swap surfaces `Failed to swap dist directories: {cause}`, a
successful one returns the updated result (updater.js lines 412-434). -/
def swapStep (env : Env) (fs3 : Fs) (localVer remoteVer : Option String)
    (evs3 : List Ev) : Except UErr URes × Fs × List Ev :=
  match swapPhase env fs3 with
  | (some cause, fs4) => (.error (.swapErr cause), fs4, evs3)
  | (none, fs4) => (.ok (.updated localVer remoteVer), fs4, evs3)

/-- Phases 2-5 of `runUpdater` (updater.js lines 281-434), reached when
the version gate does not fire: stage, download, enrich with TTS, build
`distTmp`, swap. -/
def runMain (env : Env) (fs : Fs) (remote : Manifest)
    (localVer remoteVer : Option String) (ev0 : List Ev) :
    Except UErr URes × Fs × List Ev :=
  let files := filesToDownload env remote
  let n := files.length
  let fs1 : Fs := { fs with tmpRoot := some [] }
  let evs1 := ev0 ++ Ev.status "Creating folders..." :: createEvs files
  match dlLoop env n files 0 0 [] with
  | .fail url cause evsD =>
    (.error (.downloadErr url cause), { fs1 with tmpRoot := none },
     evs1 ++ Ev.status "Downloading files..." :: evsD)
  | .ok tmpT evsD =>
    let books := collectTtsBooks remote
    let ttsRes := ttsLoop env books.length books 0 tmpT
    let evs3 := evs1 ++ Ev.status "Downloading files..." :: evsD ++
      Ev.status "Generating TTS audio files..." :: ttsRes.2
    let distContents := match fs1.dist with | some d => d | none => []
    let fs3 : Fs := { fs1 with tmpRoot := some ttsRes.1,
                               distTmp := some (overlayT distContents ttsRes.1) }
    swapStep env fs3 localVer remoteVer evs3

/-- Phase 1 of `runUpdater` (updater.js lines 242-278): emit the
analyze tick, read the local manifest, fetch and parse the remote one,
and fire the version gate. -/
def runCore (env : Env) (fs : Fs) : Except UErr URes × Fs × List Ev :=
  let ev0 : List Ev := [.pct 0 "Analyzing remote manifest..."]
  match env.remoteFetch with
  | .fetchFail msg => (.error (.fetchErr msg), fs, ev0)
  | .parseFail msg => (.error (.parseErr msg), fs, ev0)
  | .ok remote =>
    let localVer := manifestVer (localManifest fs)
    let remoteVer := truthy remote.version
    if sameVersionHit remote fs then
      (.ok (.notUpdated "same-version" localVer remoteVer), fs,
       ev0 ++ [.pct 100 "Content up-to-date"])
    else
      runMain env fs remote localVer remoteVer ev0

/-- `runUpdater` (updater.js lines 221-435).  A listener that throws on
every invocation aborts at the very first `emitProgress(0, ...)` of the
analyze phase (the source calls `options.onProgress` with no
try/catch), before any filesystem or network effect. -/
def runUpdater (env : Env) (fs : Fs) : Except UErr URes × Fs × List Ev :=
  if env.listenerThrows then (.error .listenerErr, fs, []) else runCore env fs

/-- Result record of `checkForUpdate`. -/
structure CheckRes where
  available : Bool
  localVer : Option String
  remoteVer : Option String
deriving DecidableEq, Repr

/-- `checkForUpdate` (updater.js lines 439-460): read-only version
comparison; a missing or unparsable local `content.json` is `null`,
never an error; `available = Boolean(remoteVer && (!localVer ||
remoteVer !== localVer))`. -/
def checkForUpdate (remoteFetch : RemoteFetch) (fs : Fs) : Except UErr CheckRes :=
  let localVer := manifestVer (localManifest fs)
  match remoteFetch with
  | .fetchFail msg => .error (.fetchErr msg)
  | .parseFail msg => .error (.parseErr msg)
  | .ok remote =>
    let remoteVer := truthy remote.version
    let available :=
      match remoteVer with
      | none => false
      | some rv =>
        match localVer with
        | none => true
        | some lv => decide (¬ rv = lv)
    .ok ⟨available, localVer, remoteVer⟩

/-- Recogniser for the download-phase error shape
(`Failed to download {url}: {cause}`). -/
def isDownloadErr : Except UErr URes → Bool
  | .error (.downloadErr _ _) => true
  | _ => false

/-- Modelled from the spec: `available` is true iff remote has a version
and (local has none OR local version differs from remote); stated from
the spec's words, to be compared with `checkForUpdate`. -/
def availableSpec (remoteVer localVer : Option String) : Bool :=
  remoteVer.isSome && (localVer.isNone || decide (¬ localVer = remoteVer))

/-- The non-null percent values followed by `getLast?`: the final
percent a listener sees. -/
def lastPercent (evs : List Ev) : Option ℚ :=
  (percents evs).getLast?

/-- The final percent a successful run delivers: 100 on the
same-version early return, and on an updating run 100 when at least one
TTS-eligible book exists, else 90 (the top of the download band). -/
def finalPctSpec (remote : Manifest) : URes → ℚ
  | .notUpdated _ _ _ => 100
  | .updated _ _ => if collectTtsBooks remote = [] then 90 else 100

/-- Test fixture: a local manifest at version `1`. -/
def manV1 : Manifest := ⟨some "1", none, none, none⟩

/-- Test fixture: the committed tree holding `content.json` at version
`1`. -/
def distV1 : DirTree := [("content.json", FileData.jsonManifest manV1)]

/-- Test fixture: a filesystem whose `distDir` is `distV1` and with no
staging leftovers. -/
def fsV1 : Fs := ⟨some distV1, none, none, none⟩

/-- Test fixture: a remote manifest at version `2` with one explicit
`files` entry whose URL is `http://h/x/y.png` but whose declared
relative path is `assets/y.png`. -/
def remV2 : Manifest :=
  ⟨some "2", none, none, some [⟨some "http://h/x/y.png", some "assets/y.png", none⟩]⟩

/-- Test fixture: a download oracle that always succeeds with the bytes
`DATA`, a content-length header and a single chunk of 4 bytes. -/
def dlOK : String → DlOutcome := fun _ => .ok (.raw "DATA") true [4]

/-- Test fixture: a download oracle that always fails with a timeout. -/
def dlFail : String → DlOutcome := fun _ => .netErr "Timeout"

/-- Test fixture: an environment over origin `http://h` with the given
listener behaviour, remote-fetch outcome, download oracle and rename
failure injections. -/
def mkEnv (lt : Bool) (rf : RemoteFetch) (dl : String → DlOutcome) (df pf : Bool) : Env :=
  ⟨"http://h", lt, rf, none, dl, df, pf, "EXDEV", "T0"⟩

/-- Test fixture: the remote fetch of `content.json` times out. -/
def envC1x : Env := mkEnv false (.fetchFail "Timeout") dlFail false false

/-- Test fixture: a filesystem with a stale staging tree left over from
an earlier crashed session. -/
def fsC1x : Fs := ⟨some distV1, none, some [("stale.bin", FileData.raw "x")], none⟩

/-- Test fixture: remote at version 2, every download times out. -/
def envC1w : Env := mkEnv false (.ok remV2) dlFail false false

/-- Test fixture: remote at version 2, downloads succeed, the promote
rename (`distTmp → distDir`) throws. -/
def envC2w : Env := mkEnv false (.ok remV2) dlOK false true

/-- Test fixture: remote at version 2, downloads succeed, swap succeeds:
a fully successful updating run with no TTS-eligible book. -/
def envFilesOK : Env := mkEnv false (.ok remV2) dlOK false false

/-- Test fixture: a book carrying a non-empty `paragraphs` array, making
it TTS-eligible. -/
def bookTts : Book := ⟨some "1", none, none, some ["hello"]⟩

/-- Test fixture: a remote manifest at version 2 with one explicit file
and one TTS-eligible book. -/
def remTts : Manifest :=
  ⟨some "2", some [bookTts], none, some [⟨some "http://h/x/y.png", some "assets/y.png", none⟩]⟩

/-- Test fixture: a successful updating run whose manifest has a
TTS-eligible book. -/
def envC3w : Env := mkEnv false (.ok remTts) dlOK false false

/-- Test fixture: an always-throwing progress listener attached to an
otherwise healthy environment. -/
def envC9 : Env := mkEnv true (.ok remV2) dlOK false false

/-- Test fixture: a same-version environment (remote version equals the
local version `1`). -/
def envSame : Env := mkEnv false (.ok manV1) dlOK false false

/-- Test fixture: the book of the discovery-correctness example
(`{id:1, cover:'a.png', content:[{type:'image', src:'b.png'}]}`). -/
def bookC7 : Book := ⟨some "1", some "a.png", some [⟨"image", some "b.png", none⟩], none⟩

/-- Test fixture: the manifest of the discovery-correctness example,
with the book reachable only through `collections[].books[]` and no
`files` array. -/
def manC7 : Manifest := ⟨some "2", none, some [⟨some [bookC7]⟩], none⟩

/-- Test fixture: a book with id `1` and no other fields. -/
def bookC6 : Book := ⟨some "1", none, none, none⟩

/-- Test fixture: the explicit file entry of `remV2` as a `FileDesc`. -/
def fdX : FileDesc := ⟨"http://h/x/y.png", "assets/y.png", none⟩

/-- Helper: the value of `fs.dist`-relative file `k` after a run. -/
def distLookup (fs : Fs) (k : String) : Option FileData :=
  match fs.dist with
  | some t => lookupT t k
  | none => none

theorem sameVersion_run (env : Env) (fs : Fs) (remote : Manifest) (v : String)
    (h0 : env.listenerThrows = false) (hr : env.remoteFetch = .ok remote)
    (hrv : truthy remote.version = some v)
    (hlv : manifestVer (localManifest fs) = some v) :
    runUpdater env fs =
      (.ok (.notUpdated "same-version" (some v) (some v)), fs,
       [Ev.pct 0 "Analyzing remote manifest...", Ev.pct 100 "Content up-to-date"]) := by
  unfold runUpdater runCore
  simp [h0, hr, sameVersionHit, hrv, hlv]

/-- C9: the source calls `options.onProgress` with no try/catch
(updater.js lines 232-237), so a listener that throws on every
invocation aborts the session at the very first progress emission of the
analyze phase, with the filesystem untouched — the run does NOT succeed,
contradicting the claim (and §4.5 of the spec, which requires listener
exceptions never to abort the update). -/
theorem claim_C9_listener_throw_aborts :
    runUpdater envC9 fsV1 = (.error .listenerErr, fsV1, []) := rfl

/-- C7: on the manifest
`{collections:[{books:[{id:1, cover:'a.png', content:[{type:'image',
src:'b.png'}]}]}]}` with no `files` array, discovery yields exactly the
three claimed URLs, and a `books` array nested in a collection is walked
exactly as a flat `books` array. -/
theorem claim_C7_discovery :
    ("http://h/books/1/a.png" ∈ inferFilesFromManifest manC7 "http://h" ∧
     "http://h/books/1/b.png" ∈ inferFilesFromManifest manC7 "http://h" ∧
     "http://h/content.json" ∈ inferFilesFromManifest manC7 "http://h") ∧
    (∀ (v : Option String) (bs : List Book) (fl : Option (List FileEntry)) (base : String),
      inferFilesFromManifest ⟨v, some bs, none, fl⟩ base =
        inferFilesFromManifest ⟨v, none, some [⟨some bs⟩], fl⟩ base) := by
  constructor
  · decide
  · intro v bs fl base
    rfl

/-- C4: `checkForUpdate` with a fetched-and-parsed remote manifest never
fails, and returns exactly the spec's `available` predicate of the two
versions; a local `content.json` that is unparsable, missing, or in a
missing tree counts as no local version. -/
theorem claim_C4_check :
    (∀ (m : Manifest) (fs : Fs),
      checkForUpdate (.ok m) fs =
        .ok ⟨availableSpec (truthy m.version) (manifestVer (localManifest fs)),
             manifestVer (localManifest fs), truthy m.version⟩) ∧
    (∀ (b t tmp : Option DirTree) (s : String) (rest : DirTree),
      manifestVer (localManifest ⟨some (("content.json", FileData.raw s) :: rest), b, t, tmp⟩) = none) ∧
    (∀ (b t tmp : Option DirTree),
      manifestVer (localManifest ⟨some [], b, t, tmp⟩) = none ∧
      manifestVer (localManifest ⟨none, b, t, tmp⟩) = none) := by
  refine ⟨?_, ?_, ?_⟩
  · intro m fs
    unfold checkForUpdate availableSpec
    rcases hrv : truthy m.version with _ | rv <;>
      rcases hlv : manifestVer (localManifest fs) with _ | lv <;>
        simp [hrv, hlv]
    exact eq_comm
  · intro b t tmp s rest
    rfl
  · intro b t tmp
    exact ⟨rfl, rfl⟩

/-- C5 (amended only in proof style, claim confirmed): when the truthy
local and remote versions are equal, `runUpdater` returns `{updated:
false, reason: same-version}` with the filesystem untouched and exactly
the two analyze-phase progress ticks, and its entire outcome is
independent of the download oracle and the `index.html` scrape — no
asset fetch can influence (or be required by) the run. -/
theorem claim_C5_version_gate (base : String) (remote : Manifest) (fs : Fs) (v : String)
    (is1 is2 : Option (List String)) (dl1 dl2 : String → DlOutcome)
    (df pf : Bool) (re now : String)
    (hrv : truthy remote.version = some v)
    (hlv : manifestVer (localManifest fs) = some v) :
    runUpdater (Env.mk base false (.ok remote) is1 dl1 df pf re now) fs =
      (.ok (.notUpdated "same-version" (some v) (some v)), fs,
       [Ev.pct 0 "Analyzing remote manifest...", Ev.pct 100 "Content up-to-date"]) ∧
    runUpdater (Env.mk base false (.ok remote) is1 dl1 df pf re now) fs =
      runUpdater (Env.mk base false (.ok remote) is2 dl2 df pf re now) fs := by
  have h1 := sameVersion_run (Env.mk base false (.ok remote) is1 dl1 df pf re now) fs remote v
    rfl rfl hrv hlv
  have h2 := sameVersion_run (Env.mk base false (.ok remote) is2 dl2 df pf re now) fs remote v
    rfl rfl hrv hlv
  exact ⟨h1, h1.trans h2.symm⟩

/-- C5 witness: the gate at local = remote = version 1, with two
environments whose download oracles disagree everywhere. -/
theorem claim_C5_witness :
    runUpdater (Env.mk "http://h" false (.ok manV1) none dlFail false false "E" "T") fsV1 =
      (.ok (.notUpdated "same-version" (some "1") (some "1")), fsV1,
       [Ev.pct 0 "Analyzing remote manifest...", Ev.pct 100 "Content up-to-date"]) ∧
    runUpdater (Env.mk "http://h" false (.ok manV1) none dlFail false false "E" "T") fsV1 =
      runUpdater (Env.mk "http://h" false (.ok manV1) (some ["http://h/u.css"]) dlOK false false "E" "T") fsV1 :=
  claim_C5_version_gate "http://h" manV1 fsV1 "1" none (some ["http://h/u.css"])
    dlFail dlOK false false "E" "T" rfl rfl

/-- C10: a run that takes the same-version early return leaves every
modelled path on disk exactly as it was before the call. -/
theorem claim_C10_no_write (env : Env) (fs : Fs) (remote : Manifest) (v : String)
    (h0 : env.listenerThrows = false) (hr : env.remoteFetch = .ok remote)
    (hrv : truthy remote.version = some v)
    (hlv : manifestVer (localManifest fs) = some v) :
    (runUpdater env fs).2.1 = fs := by
  rw [sameVersion_run env fs remote v h0 hr hrv hlv]

/-- C10 witness: the same-version run over `fsV1` returns `fsV1`
unchanged. -/
theorem claim_C10_witness : (runUpdater envSame fsV1).2.1 = fsV1 :=
  claim_C10_no_write envSame fsV1 manV1 "1" rfl rfl rfl rfl

/-- C6 counterexample: a relative path containing a slash does NOT
resolve relative to the base URL when the enclosing book has an id — the
source prefixes `/books/{id}/` to every schemeless, non-root reference
(updater.js lines 58-60), so `imgs/a.png` in book 1 resolves to
`http://h/books/1/imgs/a.png`, not to `http://h/imgs/a.png` as the
claim states. -/
theorem claim_C6_counterexample :
    resolveAsset "http://h" (some bookC6) (some "imgs/a.png") =
      some "http://h/books/1/imgs/a.png" ∧
    ¬ resolveAsset "http://h" (some bookC6) (some "imgs/a.png") =
      some "http://h/imgs/a.png" := by decide

/-- C6 (amended): an absolute URL passes through unchanged; a leading
`/` resolves against the base; ANY other non-empty reference — bare
filename or relative path with slashes — resolves to
`{base}/books/{id}/{p}` whenever the book has a defined id; only when
there is no book or the book's id is undefined does it resolve relative
to the base. -/
theorem claim_C6_resolution :
    (∀ (base : String) (b : Option Book) (p : String),
      ¬ p = "" → isAbsUrl p = true → resolveAsset base b (some p) = some p) ∧
    (∀ (base : String) (b : Option Book) (p : String),
      ¬ p = "" → isAbsUrl p = false → strStarts "/" p = true →
        resolveAsset base b (some p) = some (base ++ p)) ∧
    (∀ (base : String) (bk : Book) (id p : String),
      ¬ p = "" → isAbsUrl p = false → strStarts "/" p = false → bk.id = some id →
        resolveAsset base (some bk) (some p) = some (base ++ "/books/" ++ id ++ "/" ++ p)) ∧
    (∀ (base : String) (bk : Book) (p : String),
      ¬ p = "" → isAbsUrl p = false → strStarts "/" p = false → bk.id = none →
        resolveAsset base (some bk) (some p) = some (base ++ "/" ++ p)) ∧
    (∀ (base : String) (p : String),
      ¬ p = "" → isAbsUrl p = false → strStarts "/" p = false →
        resolveAsset base none (some p) = some (base ++ "/" ++ p)) := by
  refine ⟨?_, ?_, ?_, ?_, ?_⟩ <;> intros <;> simp_all [resolveAsset]

/-- C6 witness: the books-folder case applied to the slash-containing
reference `imgs/a.png` of book 1. -/
theorem claim_C6_witness :
    resolveAsset "http://h" (some bookC6) (some "imgs/a.png") =
      some ("http://h" ++ "/books/" ++ "1" ++ "/" ++ "imgs/a.png") :=
  claim_C6_resolution.2.2.1 "http://h" bookC6 "1" "imgs/a.png"
    (by decide) (by decide) (by decide) rfl

/-- C2: when the displace rename succeeds and the promote rename throws
(so `distDir.bak` exists while `distDir` is missing), the rollback
renames `distDir.bak` back to `distDir`, restoring the committed tree
exactly, and a swap error wrapping the rename's cause is raised. -/
theorem claim_C2_rollback (env : Env) (fs : Fs) (remote : Manifest) (d tmpT : DirTree)
    (evsD : List Ev)
    (h0 : env.listenerThrows = false)
    (hr : env.remoteFetch = .ok remote)
    (hsv : sameVersionHit remote fs = false)
    (hdl : dlLoop env (filesToDownload env remote).length (filesToDownload env remote) 0 0 [] =
      .ok tmpT evsD)
    (hd : fs.dist = some d)
    (hdf : env.displaceFails = false)
    (hpf : env.promoteFails = true) :
    (runUpdater env fs).1 = .error (.swapErr env.renameErr) ∧
    (runUpdater env fs).2.1.dist = some d ∧
    (runUpdater env fs).2.1.bak = none := by
  have hrw : runUpdater env fs = runCore env fs := by simp [runUpdater, h0]
  rw [hrw]
  unfold runCore runMain
  simp only [hr, hsv, hdl]
  simp [swapStep, swapPhase, hdf, hpf, hd]

/-- C2 witness: a concrete run in which the promote rename throws
`EXDEV`; the committed tree comes back byte-identical. -/
theorem claim_C2_witness :
    (runUpdater envC2w fsV1).1 = .error (.swapErr "EXDEV") ∧
    (runUpdater envC2w fsV1).2.1.dist = some distV1 ∧
    (runUpdater envC2w fsV1).2.1.bak = none :=
  claim_C2_rollback envC2w fsV1 remV2 distV1 [("x/y.png", FileData.raw "DATA")]
    [Ev.pct 90 "Downloading x/y.png", Ev.pct 90 "Downloaded x/y.png"]
    rfl rfl (by decide) (by with_unfolding_all rfl) rfl rfl rfl

/-- C1 counterexample: an analyze-phase failure (remote `content.json`
fetch timeout) aborts the session with a fetch error that is NOT a
download error carrying the failing URL, and a stale staging tree left
by an earlier crashed session is NOT deleted — the claim's description
of Analyze-phase failures does not match the source (updater.js lines
253-255 throw before the `tmpRoot` cleanup of line 319 runs). -/
theorem claim_C1_counterexample :
    runUpdater envC1x fsC1x =
      (.error (.fetchErr "Timeout"), fsC1x, [Ev.pct 0 "Analyzing remote manifest..."]) ∧
    fsC1x.tmpRoot = some [("stale.bin", FileData.raw "x")] ∧
    isDownloadErr (runUpdater envC1x fsC1x).1 = false :=
  ⟨by with_unfolding_all rfl, rfl, by with_unfolding_all rfl⟩

theorem swapStep_result (env : Env) (fs3 : Fs) (lv rv : Option String)
    (evs3 : List Ev) :
    (∃ c fs4, swapStep env fs3 lv rv evs3 = (.error (.swapErr c), fs4, evs3)) ∨
    (∃ fs4, swapStep env fs3 lv rv evs3 = (.ok (.updated lv rv), fs4, evs3)) := by
  unfold swapStep
  rcases swapPhase env fs3 with ⟨_ | c, fs4⟩
  · exact Or.inr ⟨fs4, rfl⟩
  · exact Or.inl ⟨c, fs4, rfl⟩

theorem runMain_result (env : Env) (fs : Fs) (remote : Manifest)
    (lv rv : Option String) (ev0 : List Ev) :
    (∃ url cause evs,
      runMain env fs remote lv rv ev0 =
        (.error (.downloadErr url cause), ⟨fs.dist, fs.bak, none, fs.distTmp⟩, evs)) ∨
    (∃ c fs4 evs, runMain env fs remote lv rv ev0 = (.error (.swapErr c), fs4, evs)) ∨
    (∃ fs4 evs, runMain env fs remote lv rv ev0 = (.ok (.updated lv rv), fs4, evs)) := by
  rcases hdl : dlLoop env (filesToDownload env remote).length (filesToDownload env remote)
      0 0 [] with ⟨tmpT, evsD⟩ | ⟨u, c, evsD⟩ <;> simp only [runMain, hdl]
  · rcases swapStep_result env _ lv rv _ with ⟨c, fs4, h1⟩ | ⟨fs4, h1⟩
    · exact Or.inr (Or.inl ⟨c, fs4, _, h1⟩)
    · exact Or.inr (Or.inr ⟨fs4, _, h1⟩)
  · exact Or.inl ⟨u, c, _, rfl⟩

/-- C1 (amended): a download-phase failure deletes the staging tree
entirely and raises a download error carrying the failing URL, with
`distDir`, `distDir.bak` and `distTmp` all byte-identical to their
pre-call state; an analyze-phase failure (fetch or parse) aborts with
the whole filesystem untouched — before any temporary artifact of this
session exists — but its error does not carry a URL and it does not
remove a pre-existing staging tree. -/
theorem claim_C1_abort_cleanup (env : Env) (fs : Fs) (h0 : env.listenerThrows = false) :
    (∀ (url cause : String), (runUpdater env fs).1 = .error (.downloadErr url cause) →
      (runUpdater env fs).2.1.tmpRoot = none ∧
      (runUpdater env fs).2.1.dist = fs.dist ∧
      (runUpdater env fs).2.1.bak = fs.bak ∧
      (runUpdater env fs).2.1.distTmp = fs.distTmp) ∧
    (∀ (cause : String),
      ((runUpdater env fs).1 = .error (.fetchErr cause) ∨
       (runUpdater env fs).1 = .error (.parseErr cause)) →
      (runUpdater env fs).2.1 = fs) := by
  have hrw : runUpdater env fs = runCore env fs := by simp [runUpdater, h0]
  rcases hrf : env.remoteFetch with c | c | remote
  · have hres : runUpdater env fs =
        (.error (.fetchErr c), fs, [Ev.pct 0 "Analyzing remote manifest..."]) := by
      rw [hrw]; unfold runCore; rw [hrf]
    rw [hres]
    exact ⟨fun url cause h => by simp at h, fun cause h => rfl⟩
  · have hres : runUpdater env fs =
        (.error (.parseErr c), fs, [Ev.pct 0 "Analyzing remote manifest..."]) := by
      rw [hrw]; unfold runCore; rw [hrf]
    rw [hres]
    exact ⟨fun url cause h => by simp at h, fun cause h => rfl⟩
  · by_cases hsv : sameVersionHit remote fs = true
    · have hres : runUpdater env fs =
          (.ok (.notUpdated "same-version" (manifestVer (localManifest fs))
            (truthy remote.version)), fs,
           [Ev.pct 0 "Analyzing remote manifest...", Ev.pct 100 "Content up-to-date"]) := by
        rw [hrw]; unfold runCore; rw [hrf]; simp [hsv]
      rw [hres]
      exact ⟨fun url cause h => by simp at h, fun cause h => by
        rcases h with h | h <;> simp at h⟩
    · have hres : runUpdater env fs =
          runMain env fs remote (manifestVer (localManifest fs)) (truthy remote.version)
            [Ev.pct 0 "Analyzing remote manifest..."] := by
        rw [hrw]; unfold runCore; rw [hrf]; simp [hsv]
      rw [hres]
      rcases runMain_result env fs remote (manifestVer (localManifest fs))
          (truthy remote.version) [Ev.pct 0 "Analyzing remote manifest..."] with
        ⟨url0, cause0, evs, h1⟩ | ⟨c0, fs4, evs, h1⟩ | ⟨fs4, evs, h1⟩ <;> rw [h1]
      · exact ⟨fun url cause h => ⟨rfl, rfl, rfl, rfl⟩, fun cause h => by
          rcases h with h | h <;> simp at h⟩
      · exact ⟨fun url cause h => by simp at h, fun cause h => by
          rcases h with h | h <;> simp at h⟩
      · exact ⟨fun url cause h => by simp at h, fun cause h => by
          rcases h with h | h <;> simp at h⟩

/-- C1 witness: a run whose first asset download times out; the staging
tree is gone and all committed paths are unchanged. -/
theorem claim_C1_witness :
    (runUpdater envC1w fsV1).2.1.tmpRoot = none ∧
    (runUpdater envC1w fsV1).2.1.dist = fsV1.dist ∧
    (runUpdater envC1w fsV1).2.1.bak = fsV1.bak ∧
    (runUpdater envC1w fsV1).2.1.distTmp = fsV1.distTmp :=
  (claim_C1_abort_cleanup envC1w fsV1 rfl).1 "http://h/x/y.png" "Timeout"
    (by with_unfolding_all rfl)

/-- C8 counterexample: the explicit `files` entry declares relative
path `assets/y.png`, but after a successful run the file sits at the
path component of its URL, `x/y.png`, and nothing exists at the declared
path — the download loop derives the destination from
`new URL(f.url).pathname` and never reads `f.path` (updater.js lines
345-349). -/
theorem claim_C8_counterexample :
    remV2.files = some [⟨some "http://h/x/y.png", some "assets/y.png", none⟩] ∧
    (runUpdater envFilesOK fsV1).1 = .ok (.updated (some "1") (some "2")) ∧
    distLookup (runUpdater envFilesOK fsV1).2.1 "x/y.png" = some (.raw "DATA") ∧
    distLookup (runUpdater envFilesOK fsV1).2.1 "assets/y.png" = none :=
  ⟨rfl, by with_unfolding_all rfl, by with_unfolding_all rfl, by with_unfolding_all rfl⟩

/-- C8 (amended): a non-empty `files` array is used verbatim and each
entry resolves to an absolute URL (its truthy `url`, else its `path`,
against the base) and records a relative path (truthy `path`, else the
basename of the URL) — but the recorded path is not where the file is
written: the download loop stores every file under the staging tree at
the path component of its resolved URL. -/
theorem claim_C8_files_verbatim :
    (∀ (base : String) (f : FileEntry) (u : String),
      truthy f.url = some u → (mapFileEntry base f).url = urlResolve base u) ∧
    (∀ (base : String) (f : FileEntry),
      truthy f.url = none →
        (mapFileEntry base f).url =
          urlResolve base (match f.path with | some p => p | none => "")) ∧
    (∀ (base : String) (f : FileEntry) (p : String),
      truthy f.path = some p → (mapFileEntry base f).path = p) ∧
    (∀ (base : String) (f : FileEntry),
      truthy f.path = none →
        (mapFileEntry base f).path = basenameOf (mapFileEntry base f).url) ∧
    (∀ (env : Env) (n : Nat) (f : FileDesc) (idx cnt : Nat) (tmp : DirTree)
       (data : FileData) (hasLen : Bool) (chunks : List Nat),
      env.download f.url = .ok data hasLen chunks → ¬ data.byteSize = 0 →
      dlLoop env n [f] idx cnt tmp =
        .ok (insertT tmp (relOfUrl f.url) data)
          (fileChunkEvs n idx (relOfUrl f.url) hasLen chunks ++
            [Ev.pct (dlPct n (cnt + 1) 0) ("Downloaded " ++ relOfUrl f.url)])) := by
  refine ⟨?_, ?_, ?_, ?_, ?_⟩
  · intro base f u h
    simp [mapFileEntry, h]
  · intro base f h
    simp [mapFileEntry, h]
  · intro base f p h
    simp [mapFileEntry, h]
  · intro base f h
    simp [mapFileEntry, h]
  · intro env n f idx cnt tmp data hasLen chunks hdl hsz
    simp [dlLoop, hdl, hsz]

/-- C8 witness: the single-entry download loop writes `DATA` at the
URL's path component. -/
theorem claim_C8_witness :
    dlLoop envFilesOK 1 [fdX] 0 0 [] =
      .ok (insertT [] (relOfUrl fdX.url) (.raw "DATA"))
        (fileChunkEvs 1 0 (relOfUrl fdX.url) true [4] ++
          [Ev.pct (dlPct 1 1 0) ("Downloaded " ++ relOfUrl fdX.url)]) :=
  claim_C8_files_verbatim.2.2.2.2 envFilesOK 1 fdX 0 0 [] (.raw "DATA") true [4]
    rfl (by decide)

/-- C3 counterexample: a fully successful updating run whose manifest
has no paragraph-bearing book delivers 90 as its final percent, not 100
— after the download phase tops out at `DOWNLOAD_MAX = 90`, the TTS
phase emits nothing and the swap emits no progress at all (updater.js
lines 377-434 contain no `emitProgress(100, ...)`). -/
theorem claim_C3_counterexample :
    (runUpdater envFilesOK fsV1).1 = .ok (.updated (some "1") (some "2")) ∧
    collectTtsBooks remV2 = [] ∧
    lastPercent (runUpdater envFilesOK fsV1).2.2 = some 90 ∧
    ¬ (90 : ℚ) = 100 :=
  ⟨by with_unfolding_all rfl, rfl, by with_unfolding_all rfl, by decide⟩

theorem percents_nil : percents [] = [] := rfl

theorem percents_cons_pct (p : ℚ) (m : String) (l : List Ev) :
    percents (Ev.pct p m :: l) = p :: percents l := rfl

theorem percents_cons_status (m : String) (l : List Ev) :
    percents (Ev.status m :: l) = percents l := rfl

theorem percents_append (l1 l2 : List Ev) :
    percents (l1 ++ l2) = percents l1 ++ percents l2 :=
  List.filterMap_append l1 l2 _

theorem percents_map_pct {α : Type} (f : α → ℚ) (msg : α → String) (l : List α) :
    percents (l.map (fun r => Ev.pct (f r) (msg r))) = l.map f := by
  induction l with
  | nil => rfl
  | cons a l ih => simp only [List.map_cons, percents_cons_pct, ih]

theorem div_le_div_nonneg_den {a b m : ℚ} (h : a ≤ b) (hm : 0 ≤ m) : a / m ≤ b / m := by
  rw [div_eq_mul_inv, div_eq_mul_inv]
  exact mul_le_mul_of_nonneg_right h (inv_nonneg.mpr hm)

theorem phasePct_mono (C B S : ℚ) (hS : 0 ≤ S) (m : ℚ) (hm : 0 ≤ m) {a b : ℚ}
    (h : a ≤ b) : min C (B + a / m * S) ≤ min C (B + b / m * S) := by
  refine min_le_min le_rfl ?_
  have h2 := div_le_div_nonneg_den h hm
  nlinarith [mul_le_mul_of_nonneg_right h2 hS]

theorem phasePct_ge (C B S : ℚ) (hBC : B ≤ C) (hS : 0 ≤ S) (m : ℚ) (hm : 0 ≤ m)
    {a : ℚ} (ha : 0 ≤ a) : B ≤ min C (B + a / m * S) := by
  refine le_min hBC ?_
  have h2 : 0 ≤ a / m * S := mul_nonneg (div_nonneg ha hm) hS
  linarith

theorem dlPct_mono (n : Nat) {i j : Nat} {x y : ℚ} (h : (i : ℚ) + x ≤ (j : ℚ) + y) :
    dlPct n i x ≤ dlPct n j y :=
  phasePct_mono 90 15 75 (by norm_num) _ (Nat.cast_nonneg n) h

theorem dlPct_le (n i : Nat) (x : ℚ) : dlPct n i x ≤ 90 := min_le_left _ _

theorem dlPct_ge (n i : Nat) {x : ℚ} (hx : 0 ≤ x) : (15 : ℚ) ≤ dlPct n i x :=
  phasePct_ge 90 15 75 (by norm_num) (by norm_num) _ (Nat.cast_nonneg n)
    (add_nonneg (Nat.cast_nonneg i) hx)

theorem dlPct_final {n : Nat} (hn : n ≠ 0) : dlPct n n 0 = 90 := by
  unfold dlPct
  rw [add_zero, div_self (by exact_mod_cast hn), one_mul]
  norm_num

theorem ttsPct_mono (nb : Nat) {i j : Nat} {x y : ℚ} (h : (i : ℚ) + x ≤ (j : ℚ) + y) :
    ttsPct nb i x ≤ ttsPct nb j y :=
  phasePct_mono 100 90 10 (by norm_num) _ (Nat.cast_nonneg nb) h

theorem ttsPct_le (nb i : Nat) (x : ℚ) : ttsPct nb i x ≤ 100 := min_le_left _ _

theorem ttsPct_ge (nb i : Nat) {x : ℚ} (hx : 0 ≤ x) : (90 : ℚ) ≤ ttsPct nb i x :=
  phasePct_ge 100 90 10 (by norm_num) (by norm_num) _ (Nat.cast_nonneg nb)
    (add_nonneg (Nat.cast_nonneg i) hx)

theorem ttsPct_final {nb : Nat} (hn : nb ≠ 0) : ttsPct nb nb 0 = 100 := by
  unfold ttsPct
  rw [add_zero, div_self (by exact_mod_cast hn), one_mul]
  norm_num

theorem cumSums_pairwise (cs : List Nat) : (cumSums cs).Pairwise (· ≤ ·) := by
  induction cs with
  | nil => simp [cumSums]
  | cons c cs ih =>
    simp only [cumSums]
    refine List.Pairwise.cons ?_ (List.Pairwise.map _ (fun a b h => by omega) ih)
    intro b hb
    simp only [List.mem_map] at hb
    obtain ⟨r, _, rfl⟩ := hb
    omega

theorem cumSums_le_sum (cs : List Nat) : ∀ r ∈ cumSums cs, r ≤ cs.sum := by
  induction cs with
  | nil => simp [cumSums]
  | cons c cs ih =>
    intro r hr
    simp only [cumSums, List.mem_cons, List.mem_map] at hr
    rcases hr with rfl | ⟨a, ha, rfl⟩
    · simp only [List.sum_cons]
      omega
    · have := ih a ha
      simp only [List.sum_cons]
      omega

theorem getLast_app {α : Type} {l1 l2 : List α} (h : l2 ≠ []) :
    (l1 ++ l2).getLast? = l2.getLast? := by
  rw [List.getLast?_append]
  obtain ⟨x, hx⟩ : ∃ x, l2.getLast? = some x := by
    rcases l2 with _ | ⟨a, t⟩
    · exact absurd rfl h
    · exact ⟨_, rfl⟩
  rw [hx]
  rfl

theorem getLast_cons {α : Type} (e : α) {F : List α} (h : F ≠ []) :
    (e :: F).getLast? = F.getLast? := @getLast_app _ [e] F h

theorem percents_fileChunkEvs (n idx : Nat) (rel : String) (hasLen : Bool)
    (chunks : List Nat) :
    percents (fileChunkEvs n idx rel hasLen chunks) =
      if hasLen ∧ chunks.sum ≠ 0 then
        (cumSums chunks).map (fun (r : Nat) => dlPct n idx ((r : ℚ) / (chunks.sum : ℚ)))
      else [] := by
  unfold fileChunkEvs
  split
  · exact percents_map_pct _ _ _
  · rfl

theorem percents_ttsChunkEvs (nb i : Nat) (id : String) (hasLen : Bool)
    (chunks : List Nat) :
    percents (ttsChunkEvs nb i id hasLen chunks) =
      if hasLen ∧ chunks.sum ≠ 0 then
        (cumSums chunks).map (fun (r : Nat) => ttsPct nb i ((r : ℚ) / (chunks.sum : ℚ)))
      else [] := by
  unfold ttsChunkEvs
  split
  · exact percents_map_pct _ _ _
  · rfl

theorem seg_assemble {A F : List ℚ} {e lo hi : ℚ}
    (hA : A.Pairwise (fun a b => a ≤ b)) (hAb : ∀ q ∈ A, lo ≤ q ∧ q ≤ e)
    (hF : F.Pairwise (fun a b => a ≤ b)) (hFb : ∀ q ∈ F, e ≤ q ∧ q ≤ hi)
    (hle : lo ≤ e) (hehi : e ≤ hi) :
    ((A ++ e :: F).Pairwise (fun a b => a ≤ b)) ∧
    (∀ q ∈ A ++ e :: F, lo ≤ q ∧ q ≤ hi) := by
  constructor
  · rw [List.pairwise_append]
    refine ⟨hA, List.Pairwise.cons (fun b hb => (hFb b hb).1) hF, ?_⟩
    intro a ha b hb
    rcases List.mem_cons.mp hb with rfl | hb2
    · exact (hAb a ha).2
    · exact le_trans (hAb a ha).2 (hFb b hb2).1
  · intro q hq
    rcases List.mem_append.mp hq with h1 | h2
    · exact ⟨(hAb q h1).1, le_trans (hAb q h1).2 hehi⟩
    · rcases List.mem_cons.mp h2 with rfl | h3
      · exact ⟨hle, hehi⟩
      · exact ⟨le_trans hle (hFb q h3).1, (hFb q h3).2⟩

theorem chunk_dl_bounds (n idx : Nat) (hasLen : Bool) (chunks : List Nat) :
    (∀ q ∈ (if hasLen ∧ chunks.sum ≠ 0 then
        (cumSums chunks).map (fun (r : Nat) => dlPct n idx ((r : ℚ) / (chunks.sum : ℚ)))
      else []),
      dlPct n idx 0 ≤ q ∧ q ≤ dlPct n (idx + 1) 0) ∧
    (if hasLen ∧ chunks.sum ≠ 0 then
        (cumSums chunks).map (fun (r : Nat) => dlPct n idx ((r : ℚ) / (chunks.sum : ℚ)))
      else []).Pairwise (fun a b => a ≤ b) := by
  split
  · next hg =>
    have hS : (0 : ℚ) < (chunks.sum : ℚ) := by
      exact_mod_cast Nat.pos_of_ne_zero hg.2
    constructor
    · intro q hq
      obtain ⟨r, hr, rfl⟩ := List.mem_map.mp hq
      have hr1 : (0 : ℚ) ≤ (r : ℚ) / (chunks.sum : ℚ) :=
        div_nonneg (Nat.cast_nonneg r) (le_of_lt hS)
      have hr2 : (r : ℚ) / (chunks.sum : ℚ) ≤ 1 := by
        rw [div_le_one hS]
        exact_mod_cast cumSums_le_sum chunks r hr
      constructor
      · exact dlPct_mono n (by linarith)
      · exact dlPct_mono n (by rw [Nat.cast_succ]; linarith)
    · refine List.Pairwise.map _ ?_ (cumSums_pairwise chunks)
      intro a b hab
      refine dlPct_mono n (add_le_add_left ?_ _)
      exact div_le_div_nonneg_den (by exact_mod_cast hab) (le_of_lt hS)
  · exact ⟨fun q hq => absurd hq (List.not_mem_nil q), List.Pairwise.nil⟩

theorem chunk_tts_bounds (nb i : Nat) (hasLen : Bool) (chunks : List Nat) :
    (∀ q ∈ (if hasLen ∧ chunks.sum ≠ 0 then
        (cumSums chunks).map (fun (r : Nat) => ttsPct nb i ((r : ℚ) / (chunks.sum : ℚ)))
      else []),
      ttsPct nb i 0 ≤ q ∧ q ≤ ttsPct nb (i + 1) 0) ∧
    (if hasLen ∧ chunks.sum ≠ 0 then
        (cumSums chunks).map (fun (r : Nat) => ttsPct nb i ((r : ℚ) / (chunks.sum : ℚ)))
      else []).Pairwise (fun a b => a ≤ b) := by
  split
  · next hg =>
    have hS : (0 : ℚ) < (chunks.sum : ℚ) := by
      exact_mod_cast Nat.pos_of_ne_zero hg.2
    constructor
    · intro q hq
      obtain ⟨r, hr, rfl⟩ := List.mem_map.mp hq
      have hr1 : (0 : ℚ) ≤ (r : ℚ) / (chunks.sum : ℚ) :=
        div_nonneg (Nat.cast_nonneg r) (le_of_lt hS)
      have hr2 : (r : ℚ) / (chunks.sum : ℚ) ≤ 1 := by
        rw [div_le_one hS]
        exact_mod_cast cumSums_le_sum chunks r hr
      constructor
      · exact ttsPct_mono nb (by linarith)
      · exact ttsPct_mono nb (by rw [Nat.cast_succ]; linarith)
    · refine List.Pairwise.map _ ?_ (cumSums_pairwise chunks)
      intro a b hab
      refine ttsPct_mono nb (add_le_add_left ?_ _)
      exact div_le_div_nonneg_den (by exact_mod_cast hab) (le_of_lt hS)
  · exact ⟨fun q hq => absurd hq (List.not_mem_nil q), List.Pairwise.nil⟩

theorem dlLoop_ok_evs (env : Env) (n : Nat) :
    ∀ (files : List FileDesc) (idx : Nat) (tmp t : DirTree) (evs : List Ev),
      dlLoop env n files idx idx tmp = .ok t evs →
      (((percents evs).Pairwise (fun a b => a ≤ b)) ∧
       (∀ p ∈ percents evs, dlPct n idx 0 ≤ p ∧ p ≤ 90)) ∧
      (files ≠ [] → (percents evs).getLast? = some (dlPct n (idx + files.length) 0))
  | [], idx, tmp, t, evs, h => by
    simp only [dlLoop] at h
    cases h
    exact ⟨⟨List.Pairwise.nil, fun p hp => absurd hp (List.not_mem_nil p)⟩,
      fun hne => absurd rfl hne⟩
  | f :: rest, idx, tmp, t, evs, h => by
    simp only [dlLoop] at h
    rcases hd2 : env.download f.url with msg | ⟨data, hasLen, chunks⟩ <;>
      simp only [hd2] at h
    · exact absurd h (by simp)
    · by_cases hz : data.byteSize = 0
      · rw [if_pos hz] at h
        exact absurd h (by simp)
      · rw [if_neg hz] at h
        rcases hrec : dlLoop env n rest (idx + 1) (idx + 1)
            (insertT tmp (relOfUrl f.url) data) with ⟨tmpF, evsF⟩ | ⟨u2, c2, e2⟩ <;>
          simp only [hrec] at h
        · obtain ⟨⟨ihP, ihB⟩, ihL⟩ :=
            dlLoop_ok_evs env n rest (idx + 1) (insertT tmp (relOfUrl f.url) data)
              tmpF evsF hrec
          cases h
          obtain ⟨cb, cp⟩ := chunk_dl_bounds n idx hasLen chunks
          rw [← percents_fileChunkEvs n idx (relOfUrl f.url) hasLen chunks] at cb cp
          rw [percents_append, percents_cons_pct]
          constructor
          · exact seg_assemble cp cb ihP ihB
              (dlPct_mono n (by rw [Nat.cast_succ]; linarith))
              (dlPct_le n (idx + 1) 0)
          · intro _
            rcases rest with _ | ⟨f2, rest2⟩
            · simp only [dlLoop] at hrec
              cases hrec
              rw [show percents ([] : List Ev) = [] from rfl, List.getLast?_concat]
              rfl
            · have ihL2 := ihL (by simp)
              have hFne : percents evsF ≠ [] := by
                intro h0
                rw [h0] at ihL2
                simp at ihL2
              rw [getLast_app (List.cons_ne_nil _ _), getLast_cons _ hFne, ihL2,
                show (idx + 1) + (f2 :: rest2).length = idx + (f :: f2 :: rest2).length by
                  simp only [List.length_cons]; omega]
        · exact absurd h (by simp)

theorem ttsStep_evs (env : Env) (nb i : Nat) (b : Book) (tmp : DirTree) :
    ((percents (ttsStep env nb i b tmp).2).Pairwise (fun a b => a ≤ b)) ∧
    (∀ q ∈ percents (ttsStep env nb i b tmp).2,
      ttsPct nb i 0 ≤ q ∧ q ≤ ttsPct nb (i + 1) 0) := by
  unfold ttsStep
  rcases env.download (env.base ++ "/books/" ++ ttsBookId b ++ "/tts.wav") with
    msg | ⟨data, hasLen, chunks⟩
  · exact ⟨List.Pairwise.nil, fun q hq => absurd hq (List.not_mem_nil q)⟩
  · obtain ⟨cb, cp⟩ := chunk_tts_bounds nb i hasLen chunks
    rw [← percents_ttsChunkEvs nb i (ttsBookId b) hasLen chunks] at cb cp
    exact ⟨cp, cb⟩

theorem ttsLoop_evs (env : Env) (nb : Nat) :
    ∀ (books : List Book) (i : Nat) (tmp : DirTree),
      (((percents (ttsLoop env nb books i tmp).2).Pairwise (fun a b => a ≤ b)) ∧
       (∀ p ∈ percents (ttsLoop env nb books i tmp).2, ttsPct nb i 0 ≤ p ∧ p ≤ 100)) ∧
      (books ≠ [] →
        (percents (ttsLoop env nb books i tmp).2).getLast? =
          some (ttsPct nb (i + books.length) 0))
  | [], i, tmp => ⟨⟨List.Pairwise.nil, fun p hp => absurd hp (List.not_mem_nil p)⟩,
      fun hne => absurd rfl hne⟩
  | b :: rest, i, tmp => by
    obtain ⟨⟨ihP, ihB⟩, ihL⟩ := ttsLoop_evs env nb rest (i + 1) (ttsStep env nb i b tmp).1
    obtain ⟨sP, sB⟩ := ttsStep_evs env nb i b tmp
    have hev : (ttsLoop env nb (b :: rest) i tmp).2 =
        (ttsStep env nb i b tmp).2 ++
          Ev.pct (ttsPct nb (i + 1) 0) ("Processed TTS for book " ++ ttsBookId b) ::
            (ttsLoop env nb rest (i + 1) (ttsStep env nb i b tmp).1).2 := rfl
    rw [hev, percents_append, percents_cons_pct]
    constructor
    · exact seg_assemble sP sB ihP ihB
        (ttsPct_mono nb (by rw [Nat.cast_succ]; linarith))
        (ttsPct_le nb (i + 1) 0)
    · intro _
      rcases rest with _ | ⟨b2, rest2⟩
      · rw [show (ttsLoop env nb [] (i + 1) (ttsStep env nb i b tmp).1).2 = [] from rfl,
          show percents ([] : List Ev) = [] from rfl, List.getLast?_concat]
        rfl
      · have ihL2 := ihL (by simp)
        have hFne : percents (ttsLoop env nb (b2 :: rest2) (i + 1)
            (ttsStep env nb i b tmp).1).2 ≠ [] := by
          intro h0
          rw [h0] at ihL2
          simp at ihL2
        rw [getLast_app (List.cons_ne_nil _ _), getLast_cons _ hFne, ihL2,
          show (i + 1) + (b2 :: rest2).length = i + (b :: b2 :: rest2).length by
            simp only [List.length_cons]; omega]

theorem createEvs_percents (files : List FileDesc) :
    percents (createEvs files) =
      (List.range files.length).map
        (fun i => min 15 (5 + (((i + 1 : Nat) : ℚ) /
          ((max 1 files.length : Nat) : ℚ)) * 10)) := by
  unfold createEvs
  exact percents_map_pct _ _ _

theorem createPcts_pairwise (files : List FileDesc) :
    (percents (createEvs files)).Pairwise (fun a b => a ≤ b) := by
  rw [createEvs_percents]
  refine List.Pairwise.map _ ?_ (List.pairwise_lt_range files.length)
  intro a b hab
  exact phasePct_mono 15 5 10 (by norm_num) _ (Nat.cast_nonneg _)
    (by exact_mod_cast Nat.succ_le_succ (le_of_lt hab))

theorem createPcts_bounds (files : List FileDesc) :
    ∀ q ∈ percents (createEvs files), 0 ≤ q ∧ q ≤ 15 := by
  rw [createEvs_percents]
  intro q hq
  obtain ⟨i, hi, rfl⟩ := List.mem_map.mp hq
  constructor
  · have h5 := @phasePct_ge 15 5 10 (by norm_num) (by norm_num)
      ((max 1 files.length : Nat) : ℚ) (Nat.cast_nonneg _)
      (((i + 1 : Nat)) : ℚ) (Nat.cast_nonneg _)
    linarith
  · exact min_le_left _ _

theorem addUnique_ne_nil (l : List String) (x : String) : addUnique l x ≠ [] := by
  unfold addUnique
  split
  · next h => exact List.ne_nil_of_mem h
  · simp

theorem inferBranch_ne_nil (env : Env) (remote : Manifest) :
    inferBranch env remote ≠ [] := by
  unfold inferBranch
  intro h
  rw [List.map_eq_nil_iff] at h
  exact addUnique_ne_nil _ _ h

theorem filesToDownload_ne_nil (env : Env) (remote : Manifest) :
    filesToDownload env remote ≠ [] := by
  unfold filesToDownload
  split
  · next fl =>
    split
    · next hlen =>
      intro hmap
      rw [List.map_eq_nil_iff] at hmap
      rw [hmap] at hlen
      simp at hlen
    · exact inferBranch_ne_nil env remote
  · exact inferBranch_ne_nil env remote

theorem top_assemble {A B C : List ℚ}
    (hA : A.Pairwise (fun a b => a ≤ b)) (hAb : ∀ q ∈ A, 0 ≤ q ∧ q ≤ 15)
    (hB : B.Pairwise (fun a b => a ≤ b)) (hBb : ∀ q ∈ B, 15 ≤ q ∧ q ≤ 90)
    (hC : C.Pairwise (fun a b => a ≤ b)) (hCb : ∀ q ∈ C, 90 ≤ q ∧ q ≤ 100) :
    ((0 : ℚ) :: (A ++ (B ++ C))).Pairwise (fun a b => a ≤ b) := by
  rw [List.pairwise_cons]
  constructor
  · intro q hq
    rcases List.mem_append.mp hq with h1 | h23
    · exact (hAb q h1).1
    · rcases List.mem_append.mp h23 with h2 | h3
      · linarith [(hBb q h2).1]
      · linarith [(hCb q h3).1]
  · rw [List.pairwise_append]
    refine ⟨hA, ?_, ?_⟩
    · rw [List.pairwise_append]
      refine ⟨hB, hC, ?_⟩
      intro b hb c hc
      linarith [(hBb b hb).2, (hCb c hc).1]
    · intro a ha b hbc
      rcases List.mem_append.mp hbc with h2 | h3
      · linarith [(hAb a ha).2, (hBb b h2).1]
      · linarith [(hAb a ha).2, (hCb b h3).1]

theorem top_last_noC {A B : List ℚ} {x : ℚ} (hBne : B ≠ []) (hBl : B.getLast? = some x) :
    ((0 : ℚ) :: (A ++ (B ++ []))).getLast? = some x := by
  rw [List.append_nil, ← List.cons_append, getLast_app hBne]
  exact hBl

theorem top_last_C {A B C : List ℚ} {x : ℚ} (hCne : C ≠ []) (hCl : C.getLast? = some x) :
    ((0 : ℚ) :: (A ++ (B ++ C))).getLast? = some x := by
  have hBC : B ++ C ≠ [] := by
    intro h
    rcases List.append_eq_nil.mp h with ⟨_, h2⟩
    exact hCne h2
  rw [← List.cons_append, getLast_app hBC, getLast_app hCne]
  exact hCl

/-- C3 (amended): over any successful run the non-null percent sequence
is monotonically non-decreasing, but it ends at exactly 100 only when
the run takes the same-version early return or the manifest contains at
least one TTS-eligible (paragraph-bearing) book; a successful updating
run with no such book ends at 90, the top of the download band, because
nothing after the download phase emits a percent. -/
theorem claim_C3_progress (env : Env) (fs : Fs) (remote : Manifest) (r : URes)
    (h0 : env.listenerThrows = false)
    (hr : env.remoteFetch = .ok remote)
    (hres : (runUpdater env fs).1 = .ok r) :
    ((percents (runUpdater env fs).2.2).Pairwise (fun a b => a ≤ b)) ∧
    lastPercent (runUpdater env fs).2.2 = some (finalPctSpec remote r) := by
  have hrw : runUpdater env fs = runCore env fs := by simp [runUpdater, h0]
  by_cases hsv : sameVersionHit remote fs = true
  · have hfull : runUpdater env fs =
        (.ok (.notUpdated "same-version" (manifestVer (localManifest fs))
          (truthy remote.version)), fs,
         [Ev.pct 0 "Analyzing remote manifest...", Ev.pct 100 "Content up-to-date"]) := by
      rw [hrw]; unfold runCore; rw [hr]; simp [hsv]
    rw [hfull] at hres ⊢
    dsimp only at hres ⊢
    rw [Except.ok.injEq] at hres
    subst hres
    constructor
    · simp only [percents_cons_pct, show percents ([] : List Ev) = [] from rfl]
      norm_num [List.pairwise_cons]
    · rfl
  · have hrm : runUpdater env fs =
        runMain env fs remote (manifestVer (localManifest fs)) (truthy remote.version)
          [Ev.pct 0 "Analyzing remote manifest..."] := by
      rw [hrw]; unfold runCore; rw [hr]; simp [hsv]
    rw [hrm] at hres ⊢
    rcases hdl : dlLoop env (filesToDownload env remote).length (filesToDownload env remote)
        0 0 [] with ⟨tmpT, evsD⟩ | ⟨u, c, evsD⟩
    · simp only [runMain, hdl] at hres ⊢
      rcases swapStep_result env _ (manifestVer (localManifest fs)) (truthy remote.version) _
        with ⟨c0, fs4, h1⟩ | ⟨fs4, h1⟩
      · rw [h1] at hres
        simp at hres
      · rw [h1] at hres ⊢
        dsimp only at hres ⊢
        rw [Except.ok.injEq] at hres
        subst hres
        dsimp only [finalPctSpec]
        simp only [lastPercent, percents_append, percents_cons_pct, percents_cons_status,
          percents_nil, List.nil_append, List.cons_append, List.append_assoc]
        have hfne := filesToDownload_ne_nil env remote
        obtain ⟨⟨hBp, hBb0⟩, hBl0⟩ :=
          dlLoop_ok_evs env (filesToDownload env remote).length
            (filesToDownload env remote) 0 [] tmpT evsD hdl
        have hBb : ∀ p ∈ percents evsD, 15 ≤ p ∧ p ≤ 90 := fun p hp =>
          ⟨le_trans (dlPct_ge _ 0 le_rfl) (hBb0 p hp).1, (hBb0 p hp).2⟩
        have hBl : (percents evsD).getLast? = some 90 := by
          have h2 := hBl0 hfne
          rwa [Nat.zero_add,
            dlPct_final (fun h => hfne (List.length_eq_zero.mp h))] at h2
        have hBne : percents evsD ≠ [] := by
          intro hn
          rw [hn] at hBl
          simp at hBl
        obtain ⟨⟨hCp, hCb0⟩, hCl0⟩ :=
          ttsLoop_evs env (collectTtsBooks remote).length (collectTtsBooks remote) 0 tmpT
        have hCb : ∀ p ∈ percents (ttsLoop env (collectTtsBooks remote).length
            (collectTtsBooks remote) 0 tmpT).2, 90 ≤ p ∧ p ≤ 100 := fun p hp =>
          ⟨le_trans (ttsPct_ge _ 0 le_rfl) (hCb0 p hp).1, (hCb0 p hp).2⟩
        constructor
        · exact top_assemble (createPcts_pairwise _) (createPcts_bounds _) hBp hBb hCp hCb
        · by_cases hb : collectTtsBooks remote = []
          · rw [if_pos hb]
            have hC0 : percents (ttsLoop env (collectTtsBooks remote).length
                (collectTtsBooks remote) 0 tmpT).2 = [] := by
              rw [hb]
              rfl
            rw [hC0]
            exact top_last_noC hBne hBl
          · rw [if_neg hb]
            have hCl : (percents (ttsLoop env (collectTtsBooks remote).length
                (collectTtsBooks remote) 0 tmpT).2).getLast? = some 100 := by
              have h2 := hCl0 hb
              rwa [Nat.zero_add,
                ttsPct_final (fun h => hb (List.length_eq_zero.mp h))] at h2
            have hCne : percents (ttsLoop env (collectTtsBooks remote).length
                (collectTtsBooks remote) 0 tmpT).2 ≠ [] := by
              intro hn
              rw [hn] at hCl
              simp at hCl
            exact top_last_C hCne hCl
    · simp only [runMain, hdl] at hres
      simp at hres

/-- C3 witness: a successful updating run whose manifest carries a
paragraph-bearing book delivers a non-decreasing percent sequence ending
at exactly 100. -/
theorem claim_C3_witness :
    ((percents (runUpdater envC3w fsV1).2.2).Pairwise (fun a b => a ≤ b)) ∧
    lastPercent (runUpdater envC3w fsV1).2.2 = some 100 :=
  claim_C3_progress envC3w fsV1 remTts (URes.updated (some "1") (some "2"))
    rfl rfl (by with_unfolding_all rfl)
